import Mathlib

/-!
Shallow embedding of the kirameki migration engine and connection pool
(`src/kirameki/migrate.py`, `src/kirameki/pool/_base.py`,
`src/kirameki/_priority.py`), together with theorems settling the
specification claims about them.
-/

/-! ## Planner (`migrate.SimplePlanner`) -/

inductive PlanDirection
  | backward
  | unchanged
  | forward
deriving DecidableEq, Repr

inductive PlanError
  /-- `UnknownMigrationError(v)` -/
  | unknownMigration (v : Int)
  /-- `StateHoleError(our_ver)` -/
  | stateHole (v : Int)
  /-- Python `IndexError` from `self._versions[-1]` on an empty version list. -/
  | indexError
deriving DecidableEq, Repr

/-- The tuple `(plan, direction, current, target)` returned by
`SimplePlanner.plan`. -/
structure PlanResult where
  steps : List Int
  direction : PlanDirection
  current : Int
  target : Int
deriving DecidableEq, Repr

/-- `SimplePlanner._get_current_version`: `-1` for an empty state, else
raise on the first state version missing from the loaded set, then on the
first position where the state differs from the loaded versions, else
return the last state version. -/
def getCurrentVersion (versions state : List Int) : Except PlanError Int :=
  if state.isEmpty then .ok (-1)
  else
    match state.find? (fun v => !(versions.contains v)) with
    | some v => .error (.unknownMigration v)
    | none =>
      match (state.zip versions).find? (fun p => p.1 != p.2) with
      | some p => .error (.stateHole p.2)
      | none => .ok (state.getLastD (-1))

/-- `SimplePlanner.plan`: clamp the target to `[-1, versions[-1]]`, compute
the current version, then emit an UNCHANGED/FORWARD/BACKWARD plan.  The
forward plan appends, in list order, the loaded versions `v` with
`current < v ≤ target`; the backward plan iterates the reversed list. -/
def plan (versions state : List Int) (target : Int) : Except PlanError PlanResult :=
  match versions.getLast? with
  | none => .error .indexError
  | some lastv =>
    let t := max (min target lastv) (-1)
    match getCurrentVersion versions state with
    | .error e => .error e
    | .ok current =>
      if current = t then .ok ⟨[], .unchanged, current, t⟩
      else if t > current then
        .ok ⟨versions.filter (fun v => current < v && v ≤ t), .forward, current, t⟩
      else
        .ok ⟨versions.reverse.filter (fun v => v ≤ current && t < v), .backward, current, t⟩

/-! ## Migrator (`migrate.Migrate._migrate`) -/

/-- A loaded migration as `Migrate._migrations` sees it: its version, the
sha256 of its up source, and whether it is downable. -/
structure MigDef where
  version : Int
  sha256 : String
  downable : Bool
deriving DecidableEq, Repr

inductive MigStep
  /-- `_apply_forwards`: `m.up(conn)` followed by the history INSERT. -/
  | up (v : Int)
  /-- `_apply_backwards`: `m.down(conn)` followed by the history DELETE. -/
  | down (v : Int)
deriving DecidableEq, Repr

inductive MigrateError
  | planning (e : PlanError)
  /-- `PlanningError("cannot proceed: version {} is not downable")` -/
  | notDownable (v : Int)
deriving DecidableEq, Repr

inductive MigrateResult
  /-- Normal return after a successful `conn.commit()` (`break`). -/
  | finished (steps : List MigStep)
  /-- Normal return from the `PlanDirection.UNCHANGED` branch. -/
  | unchangedReturn
  /-- The `while retry` loop exhausted after serialization failures;
  `_migrate` falls off the loop and returns `None` normally. -/
  | retriesExhausted
  | raised (e : MigrateError)
deriving DecidableEq, Repr

def returnsNormally : MigrateResult → Bool
  | .raised _ => false
  | _ => true

/-- The exact state query executed by `Migrate._migrate`. -/
def selectStateSQL : String := "SELECT version FROM __kirameki_history__"

/-- Modelled from the spec: the state query the specification prescribes
for `Migrate._migrate` step (b), which is absent from the source. -/
def specStateSelectSQL : String :=
  "SELECT version, sha256 FROM __kirameki_history__ ORDER BY version ASC"

/-- `state = [v for (v,) in cur]`: the state passed to the planner is the
bare version column of the history rows, in the order the rows come back
(no ORDER BY clause, sha256 not selected). -/
def readState (rows : List (Int × String)) : List Int :=
  rows.map (fun r => r.1)

/-- Insertion step for sorting history rows by version ascending. -/
def insertByVersion (x : Int × String) : List (Int × String) → List (Int × String)
  | [] => [x]
  | y :: ys => if x.1 ≤ y.1 then x :: y :: ys else y :: insertByVersion x ys

/-- Modelled from the spec: the state the specification says is read —
`(version, sha256)` records ordered by version ascending. -/
def specReadState (rows : List (Int × String)) : List (Int × String) :=
  rows.foldr insertByVersion []

def downableOf (migs : List MigDef) (v : Int) : Bool :=
  ((migs.find? (fun m => m.version == v)).map (fun m => m.downable)).getD false

/-- One iteration of the `while retry` body up to (but excluding) the
commit: lock, read state, plan; return `none` on UNCHANGED (the early
`return`), the applied steps on FORWARD/BACKWARD, or the raised error.
On BACKWARD the downable pre-check raises at the first non-downable
version. -/
def migrateAttempt (migs : List MigDef) (rows : List (Int × String)) (target : Int) :
    Except MigrateError (Option (List MigStep)) :=
  let versions := migs.map (fun m => m.version)
  match plan versions (readState rows) target with
  | .error e => .error (.planning e)
  | .ok pr =>
    match pr.direction with
    | .unchanged => .ok none
    | .forward => .ok (some (pr.steps.map MigStep.up))
    | .backward =>
      match pr.steps.find? (fun v => !(downableOf migs v)) with
      | some v => .error (.notDownable v)
      | none => .ok (some (pr.steps.map MigStep.down))

/-- The retry loop of `Migrate._migrate`.  `fuel` starts at
`num_retries + 1`; `serFail k` tells whether `conn.commit()` raises
`SerializationFailure` on attempt `k`.  A serialization failure rolls
back (leaving `rows` unchanged) and decrements the counter; when the
counter hits zero the loop ends and the function returns normally. -/
def migrateLoop (migs : List MigDef) (rows : List (Int × String)) (target : Int)
    (serFail : Nat → Bool) : Nat → Nat → MigrateResult
  | 0, _ => .retriesExhausted
  | fuel + 1, k =>
    match migrateAttempt migs rows target with
    | .error e => .raised e
    | .ok none => .unchangedReturn
    | .ok (some steps) =>
      if serFail k then migrateLoop migs rows target serFail fuel (k + 1)
      else .finished steps

/-- `Migrate._migrate` against a fixed history-table content. -/
def migrate (migs : List MigDef) (rows : List (Int × String)) (target : Int)
    (serFail : Nat → Bool) (numRetries : Nat) : MigrateResult :=
  migrateLoop migs rows target serFail (numRetries + 1) 0

/-- `Migrate.down`: default the target to `-1` and run `_migrate`. -/
def down (migs : List MigDef) (rows : List (Int × String)) (target : Option Int)
    (serFail : Nat → Bool) (numRetries : Nat) : MigrateResult :=
  migrate migs rows (target.getD (-1)) serFail numRetries

/-! ## SQL file loader (`migrate.SQLLoader`) -/

/-- `os.path.splitext` on a basename: split at the last dot unless every
character before it is itself a dot. -/
def splitext (cs : List Char) : List Char × List Char :=
  match (List.range cs.length).reverse.find? (fun i => cs.get? i == some '.') with
  | none => (cs, [])
  | some i =>
    if (cs.take i).all (fun c => c == '.') then (cs, [])
    else (cs.take i, cs.drop i)

/-- Python `str.isidentifier` restricted to ASCII: nonempty, first char a
letter or underscore, the rest letters, digits or underscores. -/
def isPyIdentifier (cs : List Char) : Bool :=
  match cs with
  | [] => false
  | c :: rest => (c.isAlpha || c == '_') && rest.all (fun d => d.isAlphanum || d == '_')

/-- `re.match(r"m_(?P<version>[\d_]+)_.+", s)`: the string must start with
`m_`; the greedy `[\d_]+` group is the longest run of digits/underscores
whose following character is a literal `_` with at least one character
after it.  Returns the `version` group. -/
def nameReMatch (cs : List Char) : Option (List Char) :=
  match cs with
  | 'm' :: '_' :: rest =>
    let run := rest.takeWhile (fun c => c.isDigit || c == '_')
    match (List.range run.length).reverse.find?
        (fun k => decide (1 ≤ k) && (run.get? k == some '_')
          && decide (rest.length ≥ k + 2)) with
    | some k => some (run.take k)
    | none => none
  | _ => none

/-- Python `int(s, 10)` on a string drawn from `[\d_]+`: underscores are
legal only between digits; returns `none` where CPython raises
`ValueError`. -/
def pyIntBase10 (cs : List Char) : Option Int :=
  if !cs.isEmpty && (cs.splitOn '_').all (fun p => !p.isEmpty && p.all Char.isDigit) then
    some (cs.foldl (fun acc c =>
      if c == '_' then acc else acc * 10 + ((c.toNat - 48 : Nat) : Int)) 0)
  else none

inductive ParseOutcome
  /-- Parsed version and the `is_down` flag. -/
  | parsed (version : Int) (isDown : Bool)
  /-- `_report_warning` called; the file is skipped. -/
  | warned (msg : String)
  /-- `_report_error` called; the file is skipped. -/
  | errored (msg : String)
  /-- The `ValueError` handler calls `self._report`, a method that does
  not exist on `Loader`, so an `AttributeError` is raised instead. -/
  | attrError
deriving DecidableEq, Repr

/-- `SQLLoader._parse_filename`. -/
def parseFilename (basename : String) : ParseOutcome :=
  let se := splitext basename.data
  let rest := se.1
  if se.2 != ".sql".data then .warned "is not a migration (need .sql suffix)"
  else
    let stripped :=
      if ".up".data.isSuffixOf rest then (false, rest.take (rest.length - 3))
      else if ".down".data.isSuffixOf rest then (true, rest.take (rest.length - 5))
      else (false, rest)
    let isDown := stripped.1
    let core := stripped.2
    if !isPyIdentifier core then .errored "is not a Python identifier"
    else
      match nameReMatch core with
      | none => .errored "does not conform to name spec"
      | some ver =>
        match pyIntBase10 ver with
        | some v => .parsed v isDown
        | none => .attrError

structure DirEntry where
  name : String
  isDir : Bool
deriving DecidableEq, Repr

/-- One slot of the `scripts` dict: version, up file, down file. -/
structure ScriptEntry where
  ver : Int
  upFile : Option String
  downFile : Option String
deriving DecidableEq, Repr

/-- The loader's `errors` and `warnings` accumulators, flattened to
ordered `(file, message)` pairs. -/
structure Faults where
  errors : List (String × String)
  warnings : List (String × String)
deriving DecidableEq, Repr

/-- `scripts.setdefault(version, [None, None])` followed by the slot
assignment; insertion order is preserved, a later file for the same
version and slot overwrites. -/
def updateScript : List ScriptEntry → Int → Bool → String → List ScriptEntry
  | [], v, isDown, f =>
    [⟨v, if isDown then none else some f, if isDown then some f else none⟩]
  | e :: rest, v, isDown, f =>
    if e.ver == v then
      (if isDown then { e with downFile := some f } else { e with upFile := some f }) :: rest
    else e :: updateScript rest v isDown f

inductive PyExc
  /-- The `AttributeError` escaping `_parse_filename`. -/
  | attributeError
  /-- `LoadFailed` raised by `Migrate.load` when errors accumulated. -/
  | loadFailed
deriving DecidableEq, Repr

/-- The directory scan of `SQLLoader.load_all`: warn on directories and
non-`.sql` files, record parse errors, build the `scripts` dict — or
propagate the `AttributeError` out of the generator. -/
def loadEntries : List DirEntry → List ScriptEntry → Faults →
    Except PyExc (List ScriptEntry × Faults)
  | [], scripts, fs => .ok (scripts, fs)
  | d :: rest, scripts, fs =>
    if d.isDir then
      loadEntries rest scripts
        { fs with warnings := fs.warnings ++ [(d.name, "is a directory")] }
    else
      match parseFilename d.name with
      | .warned m =>
        loadEntries rest scripts { fs with warnings := fs.warnings ++ [(d.name, m)] }
      | .errored m =>
        loadEntries rest scripts { fs with errors := fs.errors ++ [(d.name, m)] }
      | .attrError => .error .attributeError
      | .parsed v isDown => loadEntries rest (updateScript scripts v isDown d.name) fs

/-- The yield phase of `load_all`: a version with a down script but no up
script is an error; the others yield their version in insertion order. -/
def pairScripts : List ScriptEntry → Faults → List Int × Faults
  | [], fs => ([], fs)
  | e :: rest, fs =>
    match e.upFile with
    | none =>
      pairScripts rest
        { fs with errors := fs.errors ++ [(e.downFile.getD "", "has no accompanying up migration")] }
    | some _ =>
      let r := pairScripts rest fs
      (e.ver :: r.1, r.2)

/-- `SQLLoader.load_all` over an abstract directory listing. -/
def loadAll (entries : List DirEntry) : Except PyExc (List Int × Faults) :=
  match loadEntries entries [] ⟨[], []⟩ with
  | .error e => .error e
  | .ok (scripts, fs) => .ok (pairScripts scripts fs)

/-- `Migrate.load`: consume the loader fully, then raise `LoadFailed` if
any errors accumulated; exceptions escaping the generator propagate. -/
def loadMigrations (entries : List DirEntry) : Except PyExc (List Int) :=
  match loadAll entries with
  | .error e => .error e
  | .ok (vs, fs) => if fs.errors.isEmpty then .ok vs else .error .loadFailed

/-! ## Connection pool (`pool/_base.py` and `_priority.py`) -/

/-- A driver connection, as far as the pool observes it: its identity
(`id(conn)`), the `closed` flag, whether `info.transaction_status` is
IDLE, and whether the session-reset sequence in `_return_connection`
(set autocommit, `DISCARD ALL`, restore session defaults) succeeds. -/
structure Conn where
  ident : Nat
  isClosed : Bool
  txnIdle : Bool
  resetOk : Bool
deriving DecidableEq, Repr

/-- `PriorityPool._entry`: `(created_on, conn)`. -/
structure Entry where
  createdOn : Int
  conn : Conn
deriving DecidableEq, Repr

inductive PoolExc
  | poolClosed
  | poolTimeout
  | poolDeadlocked
  /-- `PoolError("attempting to insert a foreign connection")` -/
  | foreignConnection
  /-- The driver exception raised by the session reset, re-raised by
  `_return_connection`. -/
  | sessionResetRaised
deriving DecidableEq, Repr

/-- The pool state visible to the embedded operations.  The idle priority
queue is a list whose head is the next element handed out; `none` is the
close sentinel.  `inUse` is the `id(conn) → entry` dict as an ordered
association list. -/
structure PoolState where
  minconn : Nat
  maxconn : Nat
  staleTimeout : Option Int
  closed : Bool
  pid : Nat
  queue : List (Option Entry)
  inUse : List (Nat × Entry)
  inPending : Nat
deriving DecidableEq, Repr

/-- `PriorityPool.size`. -/
def poolSize (s : PoolState) : Nat :=
  s.queue.length + s.inPending + s.inUse.length

/-- `PriorityPool._reset`: empty queue, empty `in_use`, zero pending, a
fresh creator executor, `closed := False`.  Note that `_pid` is not a
field this method touches — only `BasePool.__reset` assigns it. -/
def reset (s : PoolState) : PoolState :=
  { s with closed := false, queue := [], inUse := [], inPending := 0 }

/-- `BasePool._safe_call` for a sequential caller: raise `PoolClosed` on a
closed pool; on a pid mismatch take `fork_lock` (always available here),
recheck, and reinitialize via `_reset`.  The boolean records whether the
reinitialization ran. -/
def safeCall (s : PoolState) (curPid : Nat) : Except PoolExc (PoolState × Bool) :=
  if s.closed then .error .poolClosed
  else if s.pid ≠ curPid then .ok (reset s, true)
  else .ok (s, false)

/-- `PriorityPool._ensure_minconn`: schedule one background creation
(increment `in_pending`) when `size() < minconn`. -/
def ensureMinconn (s : PoolState) : PoolState :=
  if poolSize s < s.minconn then { s with inPending := s.inPending + 1 } else s

/-- The staleness condition of `_return_connection`:
`stale_timeout is not None and (time.monotonic() - entry.created_on) >= stale_timeout`. -/
def staleCheck (s : PoolState) (e : Entry) (now : Int) : Bool :=
  match s.staleTimeout with
  | none => false
  | some st => decide (now - e.createdOn ≥ st)

/-- The observable outcome of a `_return_connection` call: the result (or
raised exception), the pool state afterwards, and the identities of the
connections whose `close()` was invoked during the call. -/
structure ReturnEffect where
  result : Except PoolExc Unit
  state : PoolState
  closedConns : List Nat

/-- `PriorityPool._return_connection`. -/
def returnConnectionInner (s : PoolState) (c : Conn) (discard : Bool) (now : Int) :
    ReturnEffect :=
  match s.inUse.find? (fun p => p.1 == c.ident) with
  | none => ⟨.error .foreignConnection, s, []⟩
  | some pe =>
    let entry := pe.2
    let s1 := { s with inUse := s.inUse.eraseP (fun p => p.1 == c.ident) }
    if c.isClosed then ⟨.ok (), ensureMinconn s1, []⟩
    else if !c.txnIdle then ⟨.ok (), ensureMinconn s1, [c.ident]⟩
    else if discard || staleCheck s1 entry now then ⟨.ok (), ensureMinconn s1, [c.ident]⟩
    else if c.resetOk then ⟨.ok (), { s1 with queue := s1.queue ++ [some entry] }, []⟩
    else ⟨.error .sessionResetRaised, ensureMinconn s1, []⟩

/-- `BasePool.return_connection`: `_safe_call` wrapper around
`_return_connection`. -/
def returnConnection (s : PoolState) (c : Conn) (discard : Bool) (now : Int)
    (curPid : Nat) : ReturnEffect :=
  match safeCall s curPid with
  | .error e => ⟨.error e, s, []⟩
  | .ok (s', _) => returnConnectionInner s' c discard now

/-- What a thread blocked in `_get_connection`'s `self._queue.get(...)`
observes when it wakes. -/
inductive WaitOutcome
  /-- The sentinel was received: it is re-put and `PoolClosed` raised. -/
  | poolClosedRaised
  /-- A real entry was received. -/
  | gotConn (c : Conn)
  /-- The queue was empty; the thread keeps waiting. -/
  | blocked
deriving DecidableEq, Repr

/-- One wake of a waiter inside `_get_connection`: a real entry is moved
into `in_use` and returned; the `None` sentinel is re-put (exactly once,
`self._queue.put_nowait(None)`) and `PoolClosed` raised. -/
def waiterReceive (s : PoolState) : WaitOutcome × PoolState :=
  match s.queue with
  | [] => (.blocked, s)
  | none :: rest => (.poolClosedRaised, { s with queue := rest ++ [none] })
  | some e :: rest =>
    (.gotConn e.conn, { s with queue := rest, inUse := (e.conn.ident, e) :: s.inUse })

/-- `n` waiters blocked in `_get_connection` are served one at a time off
the queue; collect each one's outcome. -/
def serveWaiters : Nat → PoolState → List WaitOutcome × PoolState
  | 0, s => ([], s)
  | n + 1, s =>
    let p := waiterReceive s
    let r := serveWaiters n p.2
    (p.1 :: r.1, r.2)

/-- `PriorityPool._close`: set `closed`, drain `in_use` (LIFO `popitem`)
closing each entry, shut the creator down, drain the idle queue closing
each real entry, then enqueue the single `None` sentinel.  Connection
closes are modelled as never failing, so the final `PoolError(errors)`
re-raise never fires.  Returns the new state and the identities closed. -/
def closeInner (s : PoolState) : PoolState × List Nat :=
  ({ s with closed := true, inUse := [], queue := [none] },
   s.inUse.reverse.map (fun p => p.2.conn.ident)
     ++ s.queue.filterMap (fun o => o.map (fun e => e.conn.ident)))

/-- `BasePool.close`: `_safe_call` wrapper around `_close`. -/
def closePool (s : PoolState) (curPid : Nat) : Except PoolExc (PoolState × List Nat) :=
  match safeCall s curPid with
  | .error e => .error e
  | .ok (s', _) => .ok (closeInner s')

/-! ## Helper lemmas -/

/-- Every pair of a list zipped with an extension of itself has equal
components. -/
theorem mem_zip_append_fst_eq :
    ∀ (l r : List Int) (p : Int × Int), p ∈ l.zip (l ++ r) → p.1 = p.2
  | [], _, _, h => by simp at h
  | a :: l, r, p, h => by
    simp only [List.cons_append, List.zip_cons_cons, List.mem_cons] at h
    rcases h with rfl | h
    · rfl
    · exact mem_zip_append_fst_eq l r p h

/-- `_get_current_version` accepts a state that is an initial segment of
the loaded versions and returns its last element (`-1` when empty). -/
theorem getCurrentVersion_applied (state tail : List Int) :
    getCurrentVersion (state ++ tail) state = .ok (state.getLastD (-1)) := by
  unfold getCurrentVersion
  cases state with
  | nil => rfl
  | cons a l =>
    have h1 : (a :: l).find? (fun v => !(((a :: l) ++ tail).contains v)) = none := by
      rw [List.find?_eq_none]
      intro x hx
      have hm : x ∈ (a :: l) ++ tail := List.mem_append.mpr (Or.inl hx)
      simp [hm]
      intro hne hnl
      rcases List.mem_cons.mp hx with h | h
      · exact absurd h hne
      · exact absurd h hnl
    have h2 : ((a :: l).zip ((a :: l) ++ tail)).find? (fun p => p.1 != p.2) = none := by
      rw [List.find?_eq_none]
      intro p hp
      have := mem_zip_append_fst_eq (a :: l) tail p hp
      simp [this]
    rw [if_neg (by simp), h1, h2]

/-- A waiter that finds only the sentinel in the queue raises
`PoolClosed` and leaves the queue holding exactly the sentinel again. -/
theorem waiterReceive_sentinel (s : PoolState) (h : s.queue = [none]) :
    waiterReceive s = (.poolClosedRaised, s) := by
  obtain ⟨mn, mx, st, cl, pid, q, iu, ip⟩ := s
  simp only at h
  subst h
  rfl

/-- With the sentinel alone in the queue, any number of waiters are all
served a `PoolClosed`, and the sentinel survives them all. -/
theorem serveWaiters_sentinel :
    ∀ (n : Nat) (s : PoolState), s.queue = [none] →
      serveWaiters n s = (List.replicate n .poolClosedRaised, s)
  | 0, _, _ => rfl
  | n + 1, s, h => by
    have hw : waiterReceive s = (.poolClosedRaised, s) := waiterReceive_sentinel s h
    simp [serveWaiters, hw, serveWaiters_sentinel n s h, List.replicate_succ]

/-! ## Claim theorems -/

/-- Claim C1 (code_bug evaluation): with loaded migrations `[1,2,3,4]`
and history rows `[(1,"h1"),(2,"bad")]` — migration 2's real sha256 being
`"h2"` — the migrator performs no checksum validation at all: the state
read drops the sha256 column, the planner accepts the prefix `[1,2]`, and
the run completes normally applying `[3,4]`, instead of raising the
`StateIntegrityError("checksum")` the claim requires. -/
theorem migrate_ignores_checksum :
    migrate [⟨1, "h1", true⟩, ⟨2, "h2", true⟩, ⟨3, "h3", true⟩, ⟨4, "h4", true⟩]
        [(1, "h1"), (2, "bad")] 4 (fun _ => false) 0 = .finished [.up 3, .up 4] ∧
      getCurrentVersion [1, 2, 3, 4] (readState [(1, "h1"), (2, "bad")]) = .ok 2 :=
  ⟨rfl, rfl⟩

/-- Claim C2 (code_bug evaluation): with `num_retries = 2` and every
attempt's `COMMIT` raising a serialization failure, `_migrate` exhausts
the `while retry` loop and returns normally — the last serialization
failure is swallowed, not surfaced to the caller as the claim states. -/
theorem migrate_swallows_serialization_failures :
    migrate [⟨1, "h1", true⟩] [] 1 (fun _ => true) 2 = .retriesExhausted ∧
      returnsNormally .retriesExhausted = true :=
  ⟨rfl, rfl⟩

/-- Claim C3 (code_bug evaluation): `Migrate.down` with loaded versions
`[1,2,3]`, applied state `[(1,"h1")]` and target `3 > current = 1` does
not raise `PlanningError`; it plans FORWARD and applies the forward steps
`up 2, up 3`, contradicting the claim. -/
theorem down_applies_forward_steps :
    down [⟨1, "h1", true⟩, ⟨2, "h2", true⟩, ⟨3, "h3", true⟩] [(1, "h1")] (some 3)
        (fun _ => false) 0 = .finished [.up 2, .up 3] :=
  rfl

/-- Claim C4: for a strictly ascending loaded version list, a state that
is an initial segment of it with current version `c`, and a target `t`
with `c < t` in the planner's clamped range, `plan` returns a FORWARD
plan whose steps are exactly the loaded versions `v` with `c < v ≤ t`,
in ascending order. -/
theorem plan_forward (state tail : List Int) (t lastv : Int)
    (hsorted : List.Sorted (· < ·) (state ++ tail))
    (hlast : (state ++ tail).getLast? = some lastv)
    (htmax : t ≤ lastv) (hneg : -1 ≤ t)
    (htc : state.getLastD (-1) < t) :
    plan (state ++ tail) state t =
      .ok ⟨(state ++ tail).filter (fun v => state.getLastD (-1) < v && v ≤ t),
        .forward, state.getLastD (-1), t⟩ ∧
    List.Sorted (· < ·)
      ((state ++ tail).filter (fun v => state.getLastD (-1) < v && v ≤ t)) ∧
    ∀ v : Int,
      v ∈ (state ++ tail).filter (fun v => state.getLastD (-1) < v && v ≤ t) ↔
        v ∈ state ++ tail ∧ state.getLastD (-1) < v ∧ v ≤ t := by
  refine ⟨?_, hsorted.filter _, ?_⟩
  · unfold plan
    rw [hlast, getCurrentVersion_applied]
    simp only [min_eq_left htmax, max_eq_left hneg]
    rw [if_neg (by omega), if_pos (by omega)]
  · intro v
    simp only [List.mem_filter, List.mem_append, Bool.and_eq_true, decide_eq_true_eq]

/-- Witness for C4 at the spec's literal input: loaded `[1..8]`, state
`[1..6]`, target `8` gives `(FORWARD, [7,8], 6, 8)`. -/
theorem plan_forward_witness :
    plan [1, 2, 3, 4, 5, 6, 7, 8] [1, 2, 3, 4, 5, 6] 8 = .ok ⟨[7, 8], .forward, 6, 8⟩ := by
  have h := plan_forward [1, 2, 3, 4, 5, 6] [7, 8] 8 8 (by decide) (by decide)
    (by decide) (by decide) (by decide)
  simpa using h.1

/-- Claim C5 (code_bug evaluation): the state query `_migrate` actually
executes selects only the version column with no ORDER BY, and the state
handed to the planner is the bare version list in row order — not the
`(version, sha256)` sequence ordered ascending that the claim states. -/
theorem select_state_query_divergence :
    selectStateSQL = "SELECT version FROM __kirameki_history__" ∧
      selectStateSQL ≠ specStateSelectSQL ∧
      readState [(2, "h2"), (1, "h1")] = [2, 1] ∧
      specReadState [(2, "h2"), (1, "h1")] = [(1, "h1"), (2, "h2")] :=
  ⟨rfl, by decide, rfl, rfl⟩

/-- Claim C6 (code_bug evaluation): a pool created in process 100 and
used from forked process 101 is reinitialized by `_safe_call`, but
`_reset` never updates the stored pid: the state after the reset still
carries pid 100, so the immediately following public operation runs the
whole fork-reinitialization again. -/
theorem safeCall_fork_repeats :
    safeCall ⟨1, 2, none, false, 100, [], [], 0⟩ 101
        = .ok (⟨1, 2, none, false, 100, [], [], 0⟩, true) ∧
      (safeCall ⟨1, 2, none, false, 100, [], [], 0⟩ 101).bind
          (fun p => safeCall p.1 101) = .ok (⟨1, 2, none, false, 100, [], [], 0⟩, true) ∧
      (reset ⟨1, 2, none, false, 100, [], [], 0⟩).pid = 100 :=
  ⟨rfl, rfl, rfl⟩

/-- Claim C7 (code_bug evaluation): the file name `m___x.up.sql` passes
the identifier and name-pattern checks with version group `"_"`, whose
`int(..., 10)` conversion fails; the handler then calls the nonexistent
method `self._report`, so an `AttributeError` escapes the loader instead
of an accumulated error — and it aborts the rest of the load, which would
otherwise succeed on the well-formed `m_2_ok.up.sql`. -/
theorem load_raises_attribute_error :
    parseFilename "m___x.up.sql" = .attrError ∧
      loadMigrations [⟨"m___x.up.sql", false⟩, ⟨"m_2_ok.up.sql", false⟩]
        = .error .attributeError ∧
      loadMigrations [⟨"m_2_ok.up.sql", false⟩] = .ok [2] :=
  ⟨rfl, rfl, rfl⟩

/-- Claim C8 counterexample: on an already-closed pool, `close()` does
not return successfully — the `_safe_call` wrapper raises `PoolClosed`. -/
theorem close_on_closed_raises :
    closePool ⟨1, 2, none, true, 7, [none], [], 0⟩ 7 = .error .poolClosed :=
  rfl

/-- Claim C8 as amended: a second `close()` on a closed pool raises
`PoolClosed` from the wrapper's closed check before any close work runs,
so it has no side effects and the pool state is untouched. -/
theorem close_closed_raises (s : PoolState) (curPid : Nat) (h : s.closed = true) :
    closePool s curPid = .error .poolClosed := by
  simp [closePool, safeCall, h]

/-- Witness for the amended C8. -/
theorem close_closed_raises_witness :
    closePool ⟨1, 2, none, true, 7, [none], [], 0⟩ 8 = .error .poolClosed :=
  close_closed_raises ⟨1, 2, none, true, 7, [none], [], 0⟩ 8 rfl

/-- Claim C9: whenever `close()` completes successfully it leaves exactly
one `NONE` sentinel in the idle queue, and any number of threads waiting
in `get_connection` are then each woken in turn, re-put the sentinel
exactly once, and raise `PoolClosed` — none waits forever. -/
theorem closePool_sentinel_chain (s s2 : PoolState) (cc : List Nat)
    (curPid n : Nat) (h : closePool s curPid = .ok (s2, cc)) :
    s2.queue = [none] ∧
      serveWaiters n s2 = (List.replicate n .poolClosedRaised, s2) := by
  have hq : s2.queue = [none] := by
    unfold closePool at h
    cases hsc : safeCall s curPid with
    | error e => rw [hsc] at h; simp at h
    | ok p =>
      rw [hsc] at h
      simp only [Except.ok.injEq] at h
      have hs2 : s2 = { p.1 with closed := true, inUse := [], queue := [none] } := by
        have := congrArg Prod.fst h
        simpa [closeInner] using this.symm
      rw [hs2]
  exact ⟨hq, serveWaiters_sentinel n s2 hq⟩

/-- Witness for C9: closing an open pool leaves the sentinel, and three
waiting threads all raise `PoolClosed`. -/
theorem closePool_sentinel_chain_witness :
    (⟨1, 2, none, true, 5, [none], [], 0⟩ : PoolState).queue = [none] ∧
      serveWaiters 3 ⟨1, 2, none, true, 5, [none], [], 0⟩ =
        (List.replicate 3 .poolClosedRaised, ⟨1, 2, none, true, 5, [none], [], 0⟩) :=
  closePool_sentinel_chain ⟨1, 2, none, false, 5, [], [], 0⟩
    ⟨1, 2, none, true, 5, [none], [], 0⟩ [] 5 3 rfl

/-- Claim C10: when the session reset during `return_connection` on an
open pool raises, the exception propagates to the caller, the connection
has already been removed from `in_use`, no `close()` is invoked on it,
it is not re-queued, and the only other state change is the conditional
refill toward `minconn`. -/
theorem returnConnection_reset_failure (s : PoolState) (c : Conn) (e : Entry)
    (now : Int) (curPid : Nat)
    (hclosed : s.closed = false) (hpid : s.pid = curPid)
    (hfind : s.inUse.find? (fun p => p.1 == c.ident) = some (c.ident, e))
    (hcc : c.isClosed = false) (htxn : c.txnIdle = true)
    (hstale : staleCheck s e now = false)
    (hreset : c.resetOk = false) :
    returnConnection s c false now curPid =
      ⟨.error .sessionResetRaised,
        ensureMinconn { s with inUse := s.inUse.eraseP (fun p => p.1 == c.ident) }, []⟩ ∧
    (ensureMinconn { s with inUse := s.inUse.eraseP (fun p => p.1 == c.ident) }).queue
        = s.queue ∧
    (ensureMinconn { s with inUse := s.inUse.eraseP (fun p => p.1 == c.ident) }).closed
        = s.closed := by
  have hsc : safeCall s curPid = .ok (s, false) := by
    simp [safeCall, hclosed, hpid]
  have hstale2 :
      staleCheck { s with inUse := s.inUse.eraseP (fun p => p.1 == c.ident) } e now
        = false := hstale
  refine ⟨?_, ?_, ?_⟩
  · unfold returnConnection
    rw [hsc]
    show returnConnectionInner s c false now = _
    unfold returnConnectionInner
    rw [hfind]
    simp [hcc, htxn, hstale2, hreset]
  · unfold ensureMinconn; split <;> rfl
  · unfold ensureMinconn; split <;> rfl

/-- Witness for C10 at a concrete pool: the reset failure propagates,
`in_use` is emptied, the connection is neither closed nor re-queued, and
one refill toward `minconn = 1` is scheduled. -/
theorem returnConnection_reset_failure_witness :
    returnConnection ⟨1, 2, none, false, 9, [], [(5, ⟨0, ⟨5, false, true, false⟩⟩)], 0⟩
        ⟨5, false, true, false⟩ false 0 9 =
      ⟨.error .sessionResetRaised, ⟨1, 2, none, false, 9, [], [], 1⟩, []⟩ := by
  have h := returnConnection_reset_failure
    ⟨1, 2, none, false, 9, [], [(5, ⟨0, ⟨5, false, true, false⟩⟩)], 0⟩
    ⟨5, false, true, false⟩ ⟨0, ⟨5, false, true, false⟩⟩ 0 9
    rfl rfl rfl rfl rfl rfl rfl
  exact h.1.trans (by rfl)
